import Mathlib

/-!
Verification of the food-cli core (src/main.py) against its specification.

The embedding models:
  - the nutrient extractor inlined in the `log` command (main.py lines 138-152)
    and its textual duplicate in the `quick` command (lines 271-285);
  - the serving scaler (lines 154-159 / 287-292);
  - the log store: `log_food` (lines 59-72) appends one JSON record per line,
    and the `today` command (lines 181-224) reads the file line by line,
    filters by a date prefix of the timestamp and accumulates totals.

Numbers are modelled as rationals.  A log file is a list of JSON values, one
list element standing for one newline-terminated line; a file that does not
exist is `none`.  Python `json.dumps` / `json.loads` are modelled at the level
of a JSON syntax tree: serialization produces the tree, a stored line is a
tree, and decoding a line into a `LogEntry` follows the key accesses the
`today` command performs.
-/

/-- Substring test on character lists: `needle.isPrefixOf` at each suffix.
Models the Python `in` operator on strings. -/
def containsSub (needle : List Char) : List Char → Bool
  | [] => needle.isEmpty
  | c :: t => needle.isPrefixOf (c :: t) || containsSub needle t

/-- Python `needle in hay` for strings. -/
def strContains (hay needle : String) : Bool :=
  containsSub needle.data hay.data

/-- The nested `nutrient` sub-record of a detail-response food nutrient:
`nutrient.get("nutrient", {}).get("name", "")` and `.get("unitName", "")`. -/
structure NutrientInfo where
  name : Option String
  unitName : Option String
deriving DecidableEq

/-- One raw nutrient record as the `log` / `quick` commands read it:
a possibly missing nested `nutrient` record and a possibly missing `amount`. -/
structure FoodNutrient where
  nutrient : Option NutrientInfo
  amount : Option ℚ
deriving DecidableEq

/-- Python `nutrient.get("nutrient", {}).get("name", "")` (main.py line 142). -/
def nName (n : FoodNutrient) : String :=
  ((n.nutrient.getD ⟨none, none⟩).name).getD ""

/-- Python `nutrient.get("nutrient", {}).get("unitName", "")` (main.py line 145). -/
def nUnit (n : FoodNutrient) : String :=
  ((n.nutrient.getD ⟨none, none⟩).unitName).getD ""

/-- Python `nutrient.get("amount", 0)` (main.py line 143). -/
def nValue (n : FoodNutrient) : ℚ :=
  n.amount.getD 0

/-- The four-field normalized nutrition summary. -/
structure Summary where
  calories : ℚ
  protein : ℚ
  carbs : ℚ
  fat : ℚ
deriving DecidableEq

/-- Condition of the calories branch (main.py line 145):
`"Energy" in nutrient_name and "kcal" in nutrient.get("nutrient", {}).get("unitName", "")`. -/
def calRule (n : FoodNutrient) : Bool :=
  strContains (nName n) "Energy" && strContains (nUnit n) "kcal"

/-- Condition of the protein branch (main.py line 147): `nutrient_name == "Protein"`. -/
def proteinRule (n : FoodNutrient) : Bool :=
  nName n == "Protein"

/-- Condition of the carbs branch (main.py line 149):
`nutrient_name == "Carbohydrate, by difference"`. -/
def carbsRule (n : FoodNutrient) : Bool :=
  nName n == "Carbohydrate, by difference"

/-- Condition of the fat branch (main.py line 151):
`nutrient_name == "Total lipid (fat)"`. -/
def fatRule (n : FoodNutrient) : Bool :=
  nName n == "Total lipid (fat)"

/-- One iteration of the extraction loop in the `log` command
(main.py lines 141-152): an if/elif chain assigning one field. -/
def extractStep (acc : Summary) (n : FoodNutrient) : Summary :=
  if calRule n then { acc with calories := nValue n }
  else if proteinRule n then { acc with protein := nValue n }
  else if carbsRule n then { acc with carbs := nValue n }
  else if fatRule n then { acc with fat := nValue n }
  else acc

/-- The all-zero summary, the loop initialization
`calories = protein = carbs = fat = 0.0` (main.py line 138). -/
def zeroSummary : Summary := ⟨0, 0, 0, 0⟩

/-- The nutrient extractor of the `log` command (main.py lines 138-152):
a left fold of the if/elif chain over the nutrient sequence. -/
def extract (nutrients : List FoodNutrient) : Summary :=
  nutrients.foldl extractStep zeroSummary

/-- The amount of the last reading in a sequence matching a rule, 0 if none. -/
def lastAmount (p : FoodNutrient → Bool) (ns : List FoodNutrient) : ℚ :=
  match (ns.filter p).getLast? with
  | none => 0
  | some n => nValue n

/-- Round to the nearest integer, ties to even: the rounding used by Python
float formatting on exactly representable values. -/
def roundHalfEven (q : ℚ) : ℤ :=
  let f : ℤ := ⌊q⌋
  let r : ℚ := q - f
  if r < 1/2 then f
  else if 1/2 < r then f + 1
  else if f % 2 = 0 then f else f + 1

/-- Python `f"{q:.1f}"`: the value rounded to one decimal place, printed with
exactly one digit after the point. -/
def fmtOneDec (q : ℚ) : String :=
  let n : ℤ := roundHalfEven (q * 10)
  if n < 0 then "-" ++ toString (n.natAbs / 10) ++ "." ++ toString (n.natAbs % 10)
  else toString (n.toNat / 10) ++ "." ++ toString (n.toNat % 10)

/-- The serving scaler (main.py lines 154-159): multiplies the four summary
fields by `servings` and renders `f"{serving_size * servings:.1f} {serving_unit}"`. -/
def scale (s : Summary) (serving_size : ℚ) (serving_unit : String) (servings : ℚ) :
    Summary × String :=
  (⟨s.calories * servings, s.protein * servings, s.carbs * servings, s.fat * servings⟩,
   fmtOneDec (serving_size * servings) ++ " " ++ serving_unit)

/-- One persisted log record (main.py lines 61-69). -/
structure LogEntry where
  timestamp : String
  food : String
  serving : String
  calories : ℚ
  protein_g : ℚ
  carbs_g : ℚ
  fat_g : ℚ
deriving DecidableEq

/-- A JSON value, the image of `json.dumps` / the domain of `json.loads`
for one stored line. -/
inductive Json where
  | str (s : String)
  | num (q : ℚ)
  | obj (fields : List (String × Json))

/-- Serialization of a log entry by `log_food` (main.py lines 61-72):
a JSON object with the seven keys in insertion order. -/
def serializeEntry (e : LogEntry) : Json :=
  .obj [("timestamp", .str e.timestamp),
        ("food", .str e.food),
        ("serving", .str e.serving),
        ("calories", .num e.calories),
        ("protein_g", .num e.protein_g),
        ("carbs_g", .num e.carbs_g),
        ("fat_g", .num e.fat_g)]

/-- Python `entry[key]` on a decoded JSON object. -/
def getField (j : Json) (key : String) : Option Json :=
  match j with
  | .obj fs => fs.lookup key
  | _ => none

/-- Extract a JSON string. -/
def asStr : Json → Option String
  | .str s => some s
  | _ => none

/-- Extract a JSON number. -/
def asNum : Json → Option ℚ
  | .num q => some q
  | _ => none

/-- Decoding of one stored line into a `LogEntry`, following the key accesses
the `today` command performs (main.py lines 190-224): all seven keys must be
present with the expected types, otherwise the line is malformed. -/
def parseEntry (j : Json) : Option LogEntry := do
  let t ← getField j "timestamp" >>= asStr
  let fo ← getField j "food" >>= asStr
  let sv ← getField j "serving" >>= asStr
  let c ← getField j "calories" >>= asNum
  let p ← getField j "protein_g" >>= asNum
  let cb ← getField j "carbs_g" >>= asNum
  let ft ← getField j "fat_g" >>= asNum
  pure ⟨t, fo, sv, c, p, cb, ft⟩

/-- Failure mode of the log read: the first malformed line, carried verbatim. -/
inductive ReadError where
  | parseFailure (line : Json)

/-- Reading the log file line by line (main.py lines 188-192): each line is
decoded independently; a malformed line aborts the whole read with a
`parseFailure` carrying that line. -/
def readAll : List Json → Except ReadError (List LogEntry)
  | [] => .ok []
  | l :: ls =>
    match parseEntry l with
    | none => .error (.parseFailure l)
    | some e => (readAll ls).map (e :: ·)

/-- Reading the log through the file system: a missing file (`none`) is an
empty sequence, not an error (main.py lines 181-183). -/
def readAllFS : Option (List Json) → Except ReadError (List LogEntry)
  | none => .ok []
  | some ls => readAll ls

/-- Appending one entry to the log file (main.py lines 71-72): the file is
opened in append mode, created when absent, and the serialized entry is
written as one newline-terminated line at the end. -/
def appendFS (fs : Option (List Json)) (e : LogEntry) : Option (List Json) :=
  some ((fs.getD []) ++ [serializeEntry e])

/-- Loop body accumulating the running totals (main.py lines 221-224). -/
def addTotals (t : Summary) (e : LogEntry) : Summary :=
  ⟨t.calories + e.calories, t.protein + e.protein_g,
   t.carbs + e.carbs_g, t.fat + e.fat_g⟩

/-- The daily aggregator of the `today` command (main.py lines 185-224):
collects, in log order, the entries whose timestamp starts with the date
string (line 191), then folds the running totals over them. -/
def entriesForDate (file : List LogEntry) (dateStr : String) :
    List LogEntry × Summary :=
  let rows := file.foldl
    (fun acc e => if e.timestamp.startsWith dateStr then acc ++ [e] else acc) []
  (rows, rows.foldl addTotals zeroSummary)

/-- The whole computation of the `log` command (main.py lines 131-162) as a
function of the fetched food detail fields, the servings option and the
timestamp `datetime.now().isoformat()` taken by `log_food`: the appended
`LogEntry`. -/
def logCommand (now : String) (description : Option String)
    (servingSize : Option ℚ) (servingUnit : Option String)
    (foodNutrients : Option (List FoodNutrient)) (servings : ℚ) : LogEntry :=
  let name := description.getD "Unknown food"
  let serving_size := servingSize.getD 100
  let serving_unit := servingUnit.getD "g"
  let s := (foodNutrients.getD []).foldl extractStep zeroSummary
  let calories := s.calories * servings
  let protein := s.protein * servings
  let carbs := s.carbs * servings
  let fat := s.fat * servings
  let serving_text := fmtOneDec (serving_size * servings) ++ " " ++ serving_unit
  ⟨now, name, serving_text, calories, protein, carbs, fat⟩

/-- One iteration of the extraction loop of the `quick` command
(main.py lines 274-285), translated separately from its own lines. -/
def extractStepQuick (acc : Summary) (n : FoodNutrient) : Summary :=
  if strContains (nName n) "Energy" && strContains (nUnit n) "kcal" then
    { acc with calories := nValue n }
  else if nName n == "Protein" then { acc with protein := nValue n }
  else if nName n == "Carbohydrate, by difference" then { acc with carbs := nValue n }
  else if nName n == "Total lipid (fat)" then { acc with fat := nValue n }
  else acc

/-- The whole computation of the `quick` command after the FDC id has been
resolved (main.py lines 264-295), translated separately from its own lines. -/
def quickCommand (now : String) (description : Option String)
    (servingSize : Option ℚ) (servingUnit : Option String)
    (foodNutrients : Option (List FoodNutrient)) (servings : ℚ) : LogEntry :=
  let name := description.getD "Unknown food"
  let serving_size := servingSize.getD 100
  let serving_unit := servingUnit.getD "g"
  let s := (foodNutrients.getD []).foldl extractStepQuick ⟨0, 0, 0, 0⟩
  let calories := s.calories * servings
  let protein := s.protein * servings
  let carbs := s.carbs * servings
  let fat := s.fat * servings
  let serving_text := fmtOneDec (serving_size * servings) ++ " " ++ serving_unit
  ⟨now, name, serving_text, calories, protein, carbs, fat⟩

/-- A sample entry used as a concrete log state in witnesses. -/
def sampleEntryA : LogEntry :=
  ⟨"2026-10-12T08:00:00", "banana", "118.0 g", 105, 1, 27, 0⟩

/-- A second sample entry used as a concrete appended record in witnesses. -/
def sampleEntryB : LogEntry :=
  ⟨"2026-10-12T12:30:00", "egg", "50.0 g", 72, 6, 0, 5⟩

theorem extractStep_calories (acc : Summary) (n : FoodNutrient) :
    (extractStep acc n).calories = if calRule n then nValue n else acc.calories := by
  unfold extractStep
  cases h : calRule n <;> simp [h]
  cases proteinRule n <;> cases carbsRule n <;> cases fatRule n <;> simp

theorem proteinRule_not_cal (n : FoodNutrient) (h : proteinRule n = true) :
    calRule n = false := by
  unfold proteinRule at h
  have hn : nName n = "Protein" := by
    simpa using h
  unfold calRule
  rw [hn]
  have : strContains "Protein" "Energy" = false := by decide
  simp [this]

theorem carbsRule_not_cal (n : FoodNutrient) (h : carbsRule n = true) :
    calRule n = false := by
  unfold carbsRule at h
  have hn : nName n = "Carbohydrate, by difference" := by
    simpa using h
  unfold calRule
  rw [hn]
  have : strContains "Carbohydrate, by difference" "Energy" = false := by decide
  simp [this]

theorem fatRule_not_cal (n : FoodNutrient) (h : fatRule n = true) :
    calRule n = false := by
  unfold fatRule at h
  have hn : nName n = "Total lipid (fat)" := by
    simpa using h
  unfold calRule
  rw [hn]
  have : strContains "Total lipid (fat)" "Energy" = false := by decide
  simp [this]

theorem extractStep_protein (acc : Summary) (n : FoodNutrient) :
    (extractStep acc n).protein = if proteinRule n then nValue n else acc.protein := by
  unfold extractStep
  cases hp : proteinRule n
  · cases hc : calRule n <;> cases carbsRule n <;> cases fatRule n <;> simp [hp]
  · rw [proteinRule_not_cal n hp]
    simp [hp]

theorem extractStep_carbs (acc : Summary) (n : FoodNutrient) :
    (extractStep acc n).carbs = if carbsRule n then nValue n else acc.carbs := by
  unfold extractStep
  cases hb : carbsRule n
  · cases calRule n <;> cases proteinRule n <;> cases fatRule n <;> simp [hb]
  · rw [carbsRule_not_cal n hb]
    have hp : proteinRule n = false := by
      unfold carbsRule at hb
      have hn : nName n = "Carbohydrate, by difference" := by simpa using hb
      unfold proteinRule
      rw [hn]
      decide
    simp [hp, hb]

theorem extractStep_fat (acc : Summary) (n : FoodNutrient) :
    (extractStep acc n).fat = if fatRule n then nValue n else acc.fat := by
  unfold extractStep
  cases hf : fatRule n
  · cases calRule n <;> cases proteinRule n <;> cases carbsRule n <;> simp [hf]
  · rw [fatRule_not_cal n hf]
    have hn : nName n = "Total lipid (fat)" := by
      unfold fatRule at hf
      simpa using hf
    have hp : proteinRule n = false := by
      unfold proteinRule
      rw [hn]
      decide
    have hb : carbsRule n = false := by
      unfold carbsRule
      rw [hn]
      decide
    simp [hp, hb, hf]

theorem lastAmount_concat (p : FoodNutrient → Bool) (ns : List FoodNutrient)
    (n : FoodNutrient) :
    lastAmount p (ns ++ [n]) = if p n then nValue n else lastAmount p ns := by
  unfold lastAmount
  rw [List.filter_append]
  cases hp : p n
  · simp [hp]
  · simp [hp, List.getLast?_concat]

theorem extract_concat (ns : List FoodNutrient) (n : FoodNutrient) :
    extract (ns ++ [n]) = extractStep (extract ns) n := by
  unfold extract
  rw [List.foldl_append]
  rfl

theorem extract_eq_lastAmount (ns : List FoodNutrient) :
    (extract ns).calories = lastAmount calRule ns ∧
    (extract ns).protein = lastAmount proteinRule ns ∧
    (extract ns).carbs = lastAmount carbsRule ns ∧
    (extract ns).fat = lastAmount fatRule ns := by
  induction ns using List.reverseRecOn with
  | nil => refine ⟨rfl, rfl, rfl, rfl⟩
  | append_singleton ns n ih =>
    obtain ⟨ihc, ihp, ihb, ihf⟩ := ih
    rw [extract_concat]
    refine ⟨?_, ?_, ?_, ?_⟩
    · rw [extractStep_calories, lastAmount_concat, ihc]
    · rw [extractStep_protein, lastAmount_concat, ihp]
    · rw [extractStep_carbs, lastAmount_concat, ihb]
    · rw [extractStep_fat, lastAmount_concat, ihf]

theorem roundHalfEven_intCast (m : ℤ) : roundHalfEven (m : ℚ) = m := by
  unfold roundHalfEven
  norm_num

theorem fmtOneDec_eq (q : ℚ) (n : ℤ) (h : q * 10 = (n : ℚ)) (hn : 0 ≤ n) :
    fmtOneDec q = toString (n.toNat / 10) ++ "." ++ toString (n.toNat % 10) := by
  unfold fmtOneDec
  rw [h, roundHalfEven_intCast, if_neg (by omega)]

theorem parse_serialize (e : LogEntry) : parseEntry (serializeEntry e) = some e := rfl

theorem readAll_concat_ok (l : List Json) (es : List LogEntry)
    (h : readAll l = .ok es) (j : Json) (e : LogEntry)
    (hj : parseEntry j = some e) :
    readAll (l ++ [j]) = .ok (es ++ [e]) := by
  induction l generalizing es with
  | nil =>
    simp only [readAll] at h
    cases h
    simp [readAll, hj, Except.map]
  | cons x t ih =>
    simp only [readAll] at h
    cases hx : parseEntry x with
    | none => rw [hx] at h; cases h
    | some e0 =>
      rw [hx] at h
      cases ht : readAll t with
      | error err => rw [ht] at h; cases h
      | ok es0 =>
        rw [ht] at h
        simp only [Except.map] at h
        cases h
        have := ih es0 ht
        simp [readAll, hx, this, Except.map]

theorem readAll_first_error (good : List Json)
    (hg : ∀ l ∈ good, (parseEntry l).isSome = true)
    (bad : Json) (hb : parseEntry bad = none) (rest : List Json) :
    readAll (good ++ bad :: rest) = .error (.parseFailure bad) := by
  induction good with
  | nil => simp [readAll, hb]
  | cons x t ih =>
    have hx : (parseEntry x).isSome = true := hg x (List.mem_cons_self x t)
    obtain ⟨e0, he0⟩ := Option.isSome_iff_exists.mp hx
    have ht := ih (fun l hl => hg l (List.mem_cons_of_mem x hl))
    simp [readAll, he0, ht, Except.map]

theorem foldl_collect (dateStr : String) (l : List LogEntry) (acc : List LogEntry) :
    l.foldl (fun a e => if e.timestamp.startsWith dateStr then a ++ [e] else a) acc
      = acc ++ l.filter (fun e => e.timestamp.startsWith dateStr) := by
  induction l generalizing acc with
  | nil => simp
  | cons x t ih =>
    cases hx : x.timestamp.startsWith dateStr <;>
      simp [List.foldl_cons, List.filter_cons, hx, ih, List.append_assoc]

theorem foldl_addTotals_eq (l : List LogEntry) (t : Summary) :
    l.foldl addTotals t =
      ⟨t.calories + (l.map LogEntry.calories).sum,
       t.protein + (l.map LogEntry.protein_g).sum,
       t.carbs + (l.map LogEntry.carbs_g).sum,
       t.fat + (l.map LogEntry.fat_g).sum⟩ := by
  induction l generalizing t with
  | nil => simp
  | cons e tl ih =>
    simp only [List.foldl_cons, List.map_cons, List.sum_cons, ih, addTotals]
    simp [Summary.mk.injEq, add_assoc]

/-- C1: the claim predicts that with two kcal "Energy" readings of amounts
100 and 200 the calories field is 100 (the first match); the code's loop
overwrites without a break, so it is 200. -/
theorem extract_first_match_counterexample :
    (extract [⟨some ⟨some "Energy", some "kcal"⟩, some 100⟩,
              ⟨some ⟨some "Energy", some "kcal"⟩, some 200⟩]).calories = 200 ∧
    ¬ (extract [⟨some ⟨some "Energy", some "kcal"⟩, some 100⟩,
                ⟨some ⟨some "Energy", some "kcal"⟩, some 200⟩]).calories = 100 := by
  decide

/-- C1 (amended): for every nutrient sequence and every tracked field,
`extract` returns the amount of the LAST reading matching that field's rule
in sequence order (0 when none matches): each iteration of the loop
reassigns the field, so later matches overwrite earlier ones. -/
theorem extract_last_match_wins (ns : List FoodNutrient) :
    (extract ns).calories = lastAmount calRule ns ∧
    (extract ns).protein = lastAmount proteinRule ns ∧
    (extract ns).carbs = lastAmount carbsRule ns ∧
    (extract ns).fat = lastAmount fatRule ns :=
  extract_eq_lastAmount ns

/-- C2: a reading populates calories only when its name contains "Energy"
and its unit contains "kcal": when no reading satisfies that rule, the
calories field stays 0. -/
theorem extract_calories_only_kcal (ns : List FoodNutrient)
    (h : ∀ n ∈ ns, calRule n = false) :
    (extract ns).calories = 0 := by
  have hc := (extract_eq_lastAmount ns).1
  have hf : ns.filter calRule = [] := by
    simp [List.filter_eq_nil_iff]
    intro n hn
    simpa using h n hn
  rw [hc]
  unfold lastAmount
  rw [hf]
  rfl

/-- C2 witness: an "Energy" reading with unit "kJ" and no kcal reading
leaves calories at 0. -/
theorem extract_calories_only_kcal_witness :
    (∀ n ∈ [(⟨some ⟨some "Energy", some "kJ"⟩, some 500⟩ : FoodNutrient)],
      calRule n = false) ∧
    (extract [(⟨some ⟨some "Energy", some "kJ"⟩, some 500⟩ : FoodNutrient)]).calories = 0 :=
  ⟨by decide, extract_calories_only_kcal _ (by decide)⟩

/-- C3: `scale` multiplies each of the four summary fields by `servings`
and renders the serving text as `serving_size * servings` formatted to one
decimal place, a space, and the unit; in particular
`scale s 100 "g" 1.5` renders "150.0 g". -/
theorem scale_spec (s : Summary) (sz : ℚ) (u : String) (sv : ℚ) :
    (scale s sz u sv).1.calories = s.calories * sv ∧
    (scale s sz u sv).1.protein = s.protein * sv ∧
    (scale s sz u sv).1.carbs = s.carbs * sv ∧
    (scale s sz u sv).1.fat = s.fat * sv ∧
    (scale s sz u sv).2 = fmtOneDec (sz * sv) ++ " " ++ u ∧
    (scale s 100 "g" 1.5).2 = "150.0 g" := by
  refine ⟨rfl, rfl, rfl, rfl, rfl, ?_⟩
  show fmtOneDec (100 * (1.5 : ℚ)) ++ " " ++ "g" = "150.0 g"
  have h : fmtOneDec (100 * (1.5 : ℚ)) =
      toString ((1500 : ℤ).toNat / 10) ++ "." ++ toString ((1500 : ℤ).toNat % 10) := by
    refine fmtOneDec_eq _ 1500 (by norm_num) (by norm_num)
  rw [h]
  rfl

/-- C4: appending an entry to a log state that reads back as `es` and then
reading it all back yields `es` with the new entry at the end; in
particular the serialize-then-decode round trip restores the entry
field-for-field as the last element. -/
theorem append_then_readAll_roundTrip (fs : Option (List Json))
    (es : List LogEntry) (e : LogEntry) (h : readAllFS fs = .ok es) :
    readAllFS (appendFS fs e) = .ok (es ++ [e]) ∧
    (es ++ [e]).getLast? = some e := by
  constructor
  · have hbase : readAll (fs.getD []) = .ok es := by
      cases fs with
      | none =>
        simp only [readAllFS] at h
        cases h
        rfl
      | some l => exact h
    exact readAll_concat_ok _ _ hbase _ _ (parse_serialize e)
  · exact List.getLast?_concat _

/-- C4 witness: the round trip at a concrete one-entry log state. -/
theorem append_then_readAll_roundTrip_witness :
    readAllFS (appendFS (some [serializeEntry sampleEntryA]) sampleEntryB)
      = .ok ([sampleEntryA] ++ [sampleEntryB]) ∧
    ([sampleEntryA] ++ [sampleEntryB]).getLast? = some sampleEntryB :=
  append_then_readAll_roundTrip (some [serializeEntry sampleEntryA])
    [sampleEntryA] sampleEntryB rfl

/-- C5: the daily aggregator returns exactly the entries whose stored
timestamp starts with the date string, in original log order, and totals
equal to the field-wise sums over those rows. -/
theorem entriesForDate_rows_totals (file : List LogEntry) (dateStr : String) :
    (entriesForDate file dateStr).1
      = file.filter (fun e => e.timestamp.startsWith dateStr) ∧
    (entriesForDate file dateStr).2.calories
      = (((entriesForDate file dateStr).1).map LogEntry.calories).sum ∧
    (entriesForDate file dateStr).2.protein
      = (((entriesForDate file dateStr).1).map LogEntry.protein_g).sum ∧
    (entriesForDate file dateStr).2.carbs
      = (((entriesForDate file dateStr).1).map LogEntry.carbs_g).sum ∧
    (entriesForDate file dateStr).2.fat
      = (((entriesForDate file dateStr).1).map LogEntry.fat_g).sum := by
  have hrows : (entriesForDate file dateStr).1
      = file.filter (fun e => e.timestamp.startsWith dateStr) := by
    simp only [entriesForDate]
    rw [foldl_collect]
    simp
  have htot : (entriesForDate file dateStr).2
      = ((entriesForDate file dateStr).1).foldl addTotals zeroSummary := by
    simp only [entriesForDate]
  rw [htot, foldl_addTotals_eq]
  exact ⟨hrows, by simp [zeroSummary], by simp [zeroSummary],
    by simp [zeroSummary], by simp [zeroSummary]⟩

/-- C6: an empty or absent nutrient sequence extracts to the all-zero
summary; the extractor is total, so no error can arise. -/
theorem extract_empty_and_absent :
    extract [] = zeroSummary ∧
    ∀ o : Option (List FoodNutrient), o = none → extract (o.getD []) = zeroSummary :=
  ⟨rfl, by rintro o rfl; rfl⟩

/-- C6 witness: the absent case at the concrete input `none`. -/
theorem extract_empty_and_absent_witness :
    extract ((none : Option (List FoodNutrient)).getD []) = zeroSummary :=
  extract_empty_and_absent.2 none rfl

/-- C7: a missing log file reads back as the empty sequence, not an error,
and aggregating an empty log yields no rows and all-zero totals. -/
theorem readAll_missing_file (d : String) :
    readAllFS none = .ok [] ∧ entriesForDate [] d = ([], zeroSummary) :=
  ⟨rfl, rfl⟩

/-- C8: a malformed line makes the read fail with a parse failure carrying
the first malformed line, aborting the entire read: no entries are
returned and no partial result is produced. -/
theorem readAll_aborts_on_malformed (good : List Json)
    (hg : ∀ l ∈ good, (parseEntry l).isSome = true)
    (bad : Json) (hb : parseEntry bad = none) (rest : List Json) :
    readAll (good ++ bad :: rest) = .error (.parseFailure bad) :=
  readAll_first_error good hg bad hb rest

/-- C8 witness: one well-formed line followed by a malformed line and a
further line; the read aborts at the malformed line. -/
theorem readAll_aborts_on_malformed_witness :
    (∀ l ∈ [serializeEntry sampleEntryA], (parseEntry l).isSome = true) ∧
    parseEntry (Json.str "oops") = none ∧
    readAll ([serializeEntry sampleEntryA] ++ Json.str "oops" :: [Json.num 3])
      = .error (.parseFailure (Json.str "oops")) := by
  refine ⟨?_, rfl, ?_⟩
  · intro l hl
    rw [List.mem_singleton] at hl
    subst hl
    rfl
  · exact readAll_aborts_on_malformed [serializeEntry sampleEntryA]
      (by intro l hl; rw [List.mem_singleton] at hl; subst hl; rfl)
      (Json.str "oops") rfl [Json.num 3]

/-- C9: appending leaves the previously written lines unchanged and in
order (they are the first `length` lines of the new file), and adds the
serialized entry as exactly one line at the end. -/
theorem append_preserves_existing (fs : Option (List Json)) (e : LogEntry) :
    ((appendFS fs e).getD []).take ((fs.getD []).length) = fs.getD [] ∧
    ((appendFS fs e).getD []).getLast? = some (serializeEntry e) ∧
    ((appendFS fs e).getD []).length = (fs.getD []).length + 1 := by
  refine ⟨?_, ?_, ?_⟩
  · simp only [appendFS, Option.getD_some]
    exact List.take_left _ _
  · simp only [appendFS, Option.getD_some]
    exact List.getLast?_concat _
  · simp [appendFS]

/-- C10: the duplicated extract/scale/log code paths of the `log` command
and of the `quick` command (after the FDC id is resolved) compute the same
appended entry for every food detail, servings value and timestamp. -/
theorem logCommand_eq_quickCommand (now : String) (d : Option String)
    (sz : Option ℚ) (su : Option String)
    (fn : Option (List FoodNutrient)) (sv : ℚ) :
    logCommand now d sz su fn sv = quickCommand now d sz su fn sv := rfl
